import Mathlib

/-!
Verification of the gradient renderer in `src/main.rs`.

The program allocates a 256 by 256 RGB buffer, fills every pixel `(x, y)`
with `r = (255.999 * (x / 255)) as u8`, `g = (255.999 * (y / 255)) as u8`,
`b = (255.999 * 0.25) as u8`, and saves the buffer as `image.png`,
printing `Done.` on success or `Error writing file: <e>` on failure.

The `f64` arithmetic of the source is embedded as exact rational
arithmetic: every intermediate value of the fill lies far from an integer
boundary relative to the rounding error of `f64`, so the truncated results
coincide with the exact rational ones.
-/

namespace GradientRenderer

/-- Width constant of `main`: `const IMAGE_WIDTH: u32 = 256`. -/
def IMAGE_WIDTH : ℕ := 256

/-- Height constant of `main`: `const IMAGE_HEIGHT: u32 = 256`. -/
def IMAGE_HEIGHT : ℕ := 256

/-- An RGB pixel, `Rgb([ir, ig, ib])`: three 8-bit channels stored as naturals. -/
structure Rgb where
  r : ℕ
  g : ℕ
  b : ℕ
deriving DecidableEq, Repr

/-- Rust saturating cast `v as u8` applied to a floating-point value `q`
(embedded as a rational): truncate toward zero, then clamp into `[0, 255]`.
For every `q` the combination of truncation and clamping agrees with
`min (max 0 (floor q)) 255`, which is what we write. -/
def f64AsU8 (q : ℚ) : ℕ := min (Int.toNat ⌊q⌋) 255

/-- Normalization of the x coordinate in the loop body:
`let r = x as f64 / (IMAGE_WIDTH-1) as f64`. -/
def rNorm (x : ℕ) : ℚ := (x : ℚ) / ((IMAGE_WIDTH - 1 : ℕ) : ℚ)

/-- Normalization of the y coordinate in the loop body:
`let g = y as f64 / (IMAGE_HEIGHT-1) as f64`. -/
def gNorm (y : ℕ) : ℚ := (y : ℚ) / ((IMAGE_HEIGHT - 1 : ℕ) : ℚ)

/-- The body of the fill loop of `main` for general dimensions: the pixel
written at coordinate `(x, y)` of a `w` by `h` buffer. -/
def pixelAt (w h x y : ℕ) : Rgb :=
  let r : ℚ := (x : ℚ) / ((w - 1 : ℕ) : ℚ)
  let g : ℚ := (y : ℚ) / ((h - 1 : ℕ) : ℚ)
  let b : ℚ := 0.25
  let ir := f64AsU8 (255.999 * r)
  let ig := f64AsU8 (255.999 * g)
  let ib := f64AsU8 (255.999 * b)
  ⟨ir, ig, ib⟩

/-- Row `y` of the buffer after the fill loop (`enumerate_pixels_mut` visits
pixels of a row left to right). -/
def fillRow (w h y : ℕ) : List Rgb := (List.range w).map (fun x => pixelAt w h x y)

/-- The whole buffer after the fill loop, rows top to bottom (row-major). -/
def fill (w h : ℕ) : List (List Rgb) := (List.range h).map (fillRow w h)

/-- The `buffer` of `main` after the loop completes. -/
def renderedBuffer : List (List Rgb) := fill IMAGE_WIDTH IMAGE_HEIGHT

/-- Read the pixel stored at `(x, y)` of a buffer. -/
def getPixel (b : List (List Rgb)) (x y : ℕ) : Rgb :=
  (b.getD y []).getD x ⟨0, 0, 0⟩

/-- The expected channel value named by the spec: `floor(x/255 * 255.999)`. -/
def specQuant (x : ℕ) : ℤ := ⌊((x : ℚ) / 255) * 255.999⌋

/-- Result of `buffer.save("image.png")`; the save routine lives in the
external `image` crate, so its outcome is abstracted: success, or failure
carrying the display message of the underlying error. -/
inductive SaveResult where
  | ok : SaveResult
  | err : String → SaveResult

/-- Observable outcome of a run of `main`. -/
structure RunOutcome where
  stdout : String
  stderr : String
  normalExit : Bool
deriving DecidableEq, Repr

/-- The `match buffer.save("image.png")` at the end of `main`:
`Err(e)` runs `eprintln!("Error writing file: {}", e)`,
`Ok(())` runs `println!("Done.")`; either way `main` returns normally. -/
def mainOutcome : SaveResult → RunOutcome
  | SaveResult.ok => ⟨"Done.\n", "", true⟩
  | SaveResult.err e => ⟨"", "Error writing file: " ++ e ++ "\n", true⟩

/-! ### Helper lemmas -/

lemma floor_mul_id (x : ℕ) (hx : x ≤ 255) :
    ⌊(255.999 : ℚ) * ((x : ℚ) / 255)⌋ = (x : ℤ) := by
  have hx' : (x : ℚ) ≤ 255 := by exact_mod_cast hx
  have h0 : (0 : ℚ) ≤ (x : ℚ) := Nat.cast_nonneg x
  rw [Int.floor_eq_iff, mul_div_assoc']
  constructor
  · rw [le_div_iff₀ (by norm_num : (0 : ℚ) < 255)]
    push_cast
    linarith
  · rw [div_lt_iff₀ (by norm_num : (0 : ℚ) < 255)]
    push_cast
    linarith

lemma f64AsU8_mul_id (x : ℕ) (hx : x ≤ 255) :
    f64AsU8 ((255.999 : ℚ) * ((x : ℚ) / 255)) = x := by
  rw [f64AsU8, floor_mul_id x hx]
  simp [Nat.min_eq_left hx]

lemma blue63 : f64AsU8 ((255.999 : ℚ) * 0.25) = 63 := by
  have h : ⌊(255.999 : ℚ) * 0.25⌋ = 63 := by norm_num [Rat.floor_def]
  rw [f64AsU8, h]
  simp

lemma getPixel_fill (w h x y : ℕ) (hx : x < w) (hy : y < h) :
    getPixel (fill w h) x y = pixelAt w h x y := by
  simp [getPixel, fill, fillRow, List.getD_eq_getElem?_getD, List.getElem?_map,
    List.getElem?_range, hx, hy]

lemma pixelAt_256 (x y : ℕ) (hx : x ≤ 255) (hy : y ≤ 255) :
    pixelAt 256 256 x y = ⟨x, y, 63⟩ := by
  have hc : ((256 - 1 : ℕ) : ℚ) = 255 := by norm_num
  have hr : f64AsU8 (255.999 * ((x : ℚ) / ((256 - 1 : ℕ) : ℚ))) = x := by
    rw [hc]; exact f64AsU8_mul_id x hx
  have hg : f64AsU8 (255.999 * ((y : ℚ) / ((256 - 1 : ℕ) : ℚ))) = y := by
    rw [hc]; exact f64AsU8_mul_id y hy
  show (⟨f64AsU8 (255.999 * ((x : ℚ) / ((256 - 1 : ℕ) : ℚ))),
        f64AsU8 (255.999 * ((y : ℚ) / ((256 - 1 : ℕ) : ℚ))),
        f64AsU8 (255.999 * 0.25)⟩ : Rgb) = ⟨x, y, 63⟩
  rw [hr, hg, blue63]

lemma getPixel_rendered (x y : ℕ) (hx : x < 256) (hy : y < 256) :
    getPixel renderedBuffer x y = ⟨x, y, 63⟩ := by
  rw [show renderedBuffer = fill 256 256 from rfl, getPixel_fill 256 256 x y hx hy,
    pixelAt_256 x y (Nat.lt_succ_iff.mp hx) (Nat.lt_succ_iff.mp hy)]

/-! ### Claims -/

/-- C1: for every coordinate `(x, y)` with `0 ≤ x < 256` and `0 ≤ y < 256`,
after the fill loop the pixel stored at `(x, y)` equals
`(floor(x/255 * 255.999), floor(y/255 * 255.999), floor(0.25 * 255.999))`,
and the blue component `floor(0.25 * 255.999)` is `63`. -/
theorem stored_pixel_matches_spec (x y : ℕ) (hx : x < 256) (hy : y < 256) :
    getPixel renderedBuffer x y =
      ⟨(specQuant x).toNat, (specQuant y).toNat, (⌊(0.25 : ℚ) * 255.999⌋).toNat⟩ ∧
    ⌊(0.25 : ℚ) * 255.999⌋ = 63 := by
  have hb : ⌊(0.25 : ℚ) * 255.999⌋ = 63 := by norm_num [Rat.floor_def]
  have hs : ∀ z : ℕ, z < 256 → specQuant z = (z : ℤ) := fun z hz => by
    rw [specQuant, mul_comm]
    exact floor_mul_id z (Nat.lt_succ_iff.mp hz)
  refine ⟨?_, hb⟩
  rw [getPixel_rendered x y hx hy, hs x hx, hs y hy, hb]
  simp

/-- C1 witness: the property instantiated at the concrete coordinate (7, 200). -/
theorem stored_pixel_matches_spec_witness :
    getPixel renderedBuffer 7 200 =
      ⟨(specQuant 7).toNat, (specQuant 200).toNat, (⌊(0.25 : ℚ) * 255.999⌋).toNat⟩ ∧
    ⌊(0.25 : ℚ) * 255.999⌋ = 63 :=
  stored_pixel_matches_spec 7 200 (by norm_num) (by norm_num)

/-- C2: the four corner pixels are `(0,0,63)`, `(255,0,63)`, `(0,255,63)` and
`(255,255,63)`; in particular coordinate 255 normalizes to `1` and quantizes
to `255`, not `254`. -/
theorem corner_pixels :
    getPixel renderedBuffer 0 0 = ⟨0, 0, 63⟩ ∧
    getPixel renderedBuffer 255 0 = ⟨255, 0, 63⟩ ∧
    getPixel renderedBuffer 0 255 = ⟨0, 255, 63⟩ ∧
    getPixel renderedBuffer 255 255 = ⟨255, 255, 63⟩ ∧
    rNorm 255 = 1 ∧ f64AsU8 (255.999 * rNorm 255) = 255 := by
  have h1 : rNorm 255 = 1 := by norm_num [rNorm, IMAGE_WIDTH]
  refine ⟨getPixel_rendered 0 0 (by norm_num) (by norm_num),
    getPixel_rendered 255 0 (by norm_num) (by norm_num),
    getPixel_rendered 0 255 (by norm_num) (by norm_num),
    getPixel_rendered 255 255 (by norm_num) (by norm_num), h1, ?_⟩
  rw [h1, f64AsU8]
  have h2 : ⌊(255.999 : ℚ) * 1⌋ = 255 := by norm_num [Rat.floor_def]
  rw [h2]
  simp

/-- C3: after the fill loop the blue channel of every pixel of the 256 by 256
buffer equals the constant 63, independent of the coordinates. -/
theorem blue_channel_constant (x y : ℕ) (hx : x < IMAGE_WIDTH) (hy : y < IMAGE_HEIGHT) :
    (getPixel renderedBuffer x y).b = 63 := by
  rw [getPixel_rendered x y hx hy]

/-- C3 witness: the blue channel at the concrete coordinate (10, 20). -/
theorem blue_channel_constant_witness : (getPixel renderedBuffer 10 20).b = 63 :=
  blue_channel_constant 10 20 (by decide) (by decide)

/-- C4: for fixed `y` the red channel is non-decreasing in `x`, and for fixed
`x` the green channel is non-decreasing in `y`. -/
theorem gradient_channels_monotone :
    (∀ y x₁ x₂, y < IMAGE_HEIGHT → x₁ ≤ x₂ → x₂ < IMAGE_WIDTH →
        (getPixel renderedBuffer x₁ y).r ≤ (getPixel renderedBuffer x₂ y).r) ∧
    (∀ x y₁ y₂, x < IMAGE_WIDTH → y₁ ≤ y₂ → y₂ < IMAGE_HEIGHT →
        (getPixel renderedBuffer x y₁).g ≤ (getPixel renderedBuffer x y₂).g) := by
  constructor
  · intro y x₁ x₂ hy h12 h2
    rw [(getPixel_rendered x₁ y (lt_of_le_of_lt h12 h2) hy :),
        (getPixel_rendered x₂ y h2 hy :)]
    exact h12
  · intro x y₁ y₂ hx h12 h2
    rw [(getPixel_rendered x y₁ hx (lt_of_le_of_lt h12 h2) :),
        (getPixel_rendered x y₂ hx h2 :)]
    exact h12

/-- C4 witness: monotonicity instantiated at concrete coordinates. -/
theorem gradient_channels_monotone_witness :
    (getPixel renderedBuffer 3 0).r ≤ (getPixel renderedBuffer 200 0).r ∧
    (getPixel renderedBuffer 0 5).g ≤ (getPixel renderedBuffer 0 250).g :=
  ⟨gradient_channels_monotone.1 0 3 200 (by decide) (by decide) (by decide),
   gradient_channels_monotone.2 0 5 250 (by decide) (by decide) (by decide)⟩

/-- C5: every run terminates normally; a successful save prints exactly
`Done.` and a newline to standard output and nothing to the error stream,
and a failed save prints `Error writing file: <message>` and a newline to
the error stream and nothing to standard output. -/
theorem save_result_reporting :
    (∀ res, (mainOutcome res).normalExit = true) ∧
    (mainOutcome SaveResult.ok).stdout = "Done.\n" ∧
    (mainOutcome SaveResult.ok).stderr = "" ∧
    (∀ e, (mainOutcome (SaveResult.err e)).stdout = "" ∧
        (mainOutcome (SaveResult.err e)).stderr = "Error writing file: " ++ e ++ "\n") := by
  refine ⟨fun res => ?_, rfl, rfl, fun e => ⟨rfl, rfl⟩⟩
  cases res <;> rfl

/-- C6: the fill is deterministic: any two runs of the pixel-fill computation
produce entry-for-entry identical buffers, hence identical encodings under
any encoder. -/
theorem fill_deterministic (b₁ b₂ : List (List Rgb))
    (h₁ : b₁ = renderedBuffer) (h₂ : b₂ = renderedBuffer) :
    b₁ = b₂ ∧ ∀ encode : List (List Rgb) → List ℕ, encode b₁ = encode b₂ := by
  subst h₁ h₂
  exact ⟨rfl, fun _ => rfl⟩

/-- C6 witness: two concrete runs of the fill computation agree. -/
theorem fill_deterministic_witness :
    renderedBuffer = renderedBuffer ∧
    ∀ encode : List (List Rgb) → List ℕ, encode renderedBuffer = encode renderedBuffer :=
  fill_deterministic renderedBuffer renderedBuffer rfl rfl

/-- C7: for every normalized channel value `c` in `[0, 1]`, the quantization
`floor(255.999 * c)` is nonnegative, strictly below 256 and at most 255, and
the `as u8` cast returns exactly that floor: no truncation or saturation. -/
theorem quantize_channel_in_range (c : ℚ) (h0 : 0 ≤ c) (h1 : c ≤ 1) :
    0 ≤ ⌊(255.999 : ℚ) * c⌋ ∧ ⌊(255.999 : ℚ) * c⌋ < 256 ∧
    ⌊(255.999 : ℚ) * c⌋ ≤ 255 ∧
    (f64AsU8 ((255.999 : ℚ) * c) : ℤ) = ⌊(255.999 : ℚ) * c⌋ := by
  have hnn : (0 : ℚ) ≤ 255.999 * c := mul_nonneg (by norm_num) h0
  have hf0 : 0 ≤ ⌊(255.999 : ℚ) * c⌋ := Int.floor_nonneg.mpr hnn
  have hlt : ⌊(255.999 : ℚ) * c⌋ < 256 := by
    rw [Int.floor_lt]
    push_cast
    nlinarith [mul_le_mul_of_nonneg_left h1 (by norm_num : (0 : ℚ) ≤ 255.999)]
  refine ⟨hf0, hlt, by omega, ?_⟩
  rw [f64AsU8]
  omega

/-- C7 witness: the range property at the concrete channel value 1/2. -/
theorem quantize_channel_in_range_witness :
    0 ≤ ⌊(255.999 : ℚ) * (1 / 2)⌋ ∧ ⌊(255.999 : ℚ) * (1 / 2)⌋ < 256 ∧
    ⌊(255.999 : ℚ) * (1 / 2)⌋ ≤ 255 ∧
    (f64AsU8 ((255.999 : ℚ) * (1 / 2)) : ℤ) = ⌊(255.999 : ℚ) * (1 / 2)⌋ :=
  quantize_channel_in_range (1 / 2) (by norm_num) (by norm_num)

/-- C8: for every `x < 256` the normalization `x / (W - 1)` lies in `[0, 1]`,
and symmetrically for `y / (H - 1)`. -/
theorem normalization_in_unit_interval (x y : ℕ)
    (hx : x < IMAGE_WIDTH) (hy : y < IMAGE_HEIGHT) :
    0 ≤ rNorm x ∧ rNorm x ≤ 1 ∧ 0 ≤ gNorm y ∧ gNorm y ≤ 1 := by
  have hx' : (x : ℚ) ≤ 255 := by exact_mod_cast Nat.lt_succ_iff.mp hx
  have hy' : (y : ℚ) ≤ 255 := by exact_mod_cast Nat.lt_succ_iff.mp hy
  have hw : ((IMAGE_WIDTH - 1 : ℕ) : ℚ) = 255 := by norm_num [IMAGE_WIDTH]
  have hh : ((IMAGE_HEIGHT - 1 : ℕ) : ℚ) = 255 := by norm_num [IMAGE_HEIGHT]
  rw [rNorm, gNorm, hw, hh]
  refine ⟨by positivity, ?_, by positivity, ?_⟩
  · rw [div_le_one (by norm_num : (0 : ℚ) < 255)]
    exact hx'
  · rw [div_le_one (by norm_num : (0 : ℚ) < 255)]
    exact hy'

/-- C8 witness: the normalizations at the concrete coordinate (128, 128). -/
theorem normalization_in_unit_interval_witness :
    0 ≤ rNorm 128 ∧ rNorm 128 ≤ 1 ∧ 0 ≤ gNorm 128 ∧ gNorm 128 ≤ 1 :=
  normalization_in_unit_interval 128 128 (by decide) (by decide)

/-- C9: with the fixed dimensions W = H = 256 (both at least 2) the divisors
`W - 1` and `H - 1` of the normalization are nonzero, as naturals and as the
rationals actually divided by, so the fill has no reachable division by
zero; in general `w - 1` is nonzero for every `w ≥ 2`. -/
theorem normalization_divisors_nonzero :
    IMAGE_WIDTH - 1 ≠ 0 ∧ IMAGE_HEIGHT - 1 ≠ 0 ∧
    ((IMAGE_WIDTH - 1 : ℕ) : ℚ) ≠ 0 ∧ ((IMAGE_HEIGHT - 1 : ℕ) : ℚ) ≠ 0 ∧
    (∀ w : ℕ, 2 ≤ w → w - 1 ≠ 0) := by
  refine ⟨by decide, by decide, by norm_num [IMAGE_WIDTH], by norm_num [IMAGE_HEIGHT], ?_⟩
  intro w hw
  omega

/-- C9 witness: the general nonzero-divisor fact applied at `w = IMAGE_WIDTH`. -/
theorem normalization_divisors_nonzero_witness : IMAGE_WIDTH - 1 ≠ 0 :=
  normalization_divisors_nonzero.2.2.2.2 IMAGE_WIDTH (by decide)

/-- C10: the stored red channel equals `x` exactly and the stored green
channel equals `y` exactly (`floor(x/255 * 255.999) = x` for `x ≤ 255`), and
the red and green gradients are strictly increasing in their coordinate. -/
theorem channels_are_identity :
    (∀ x y, x < IMAGE_WIDTH → y < IMAGE_HEIGHT →
        (getPixel renderedBuffer x y).r = x ∧ (getPixel renderedBuffer x y).g = y) ∧
    (∀ x, x ≤ 255 → specQuant x = (x : ℤ)) ∧
    (∀ y x₁ x₂, y < IMAGE_HEIGHT → x₁ < x₂ → x₂ < IMAGE_WIDTH →
        (getPixel renderedBuffer x₁ y).r < (getPixel renderedBuffer x₂ y).r) ∧
    (∀ x y₁ y₂, x < IMAGE_WIDTH → y₁ < y₂ → y₂ < IMAGE_HEIGHT →
        (getPixel renderedBuffer x y₁).g < (getPixel renderedBuffer x y₂).g) := by
  have hid : ∀ x y, x < 256 → y < 256 →
      (getPixel renderedBuffer x y).r = x ∧ (getPixel renderedBuffer x y).g = y :=
    fun x y hx hy => by rw [getPixel_rendered x y hx hy]; exact ⟨rfl, rfl⟩
  refine ⟨hid, fun x hx => ?_, ?_, ?_⟩
  · rw [specQuant, mul_comm]
    exact floor_mul_id x hx
  · intro y x₁ x₂ hy h12 h2
    rw [(hid x₁ y (h12.trans h2) hy).1, (hid x₂ y h2 hy).1]
    exact h12
  · intro x y₁ y₂ hx h12 h2
    rw [(hid x y₁ hx (h12.trans h2)).2, (hid x y₂ hx h2).2]
    exact h12

/-- C10 witness: the identity and strictness facts at concrete coordinates. -/
theorem channels_are_identity_witness :
    ((getPixel renderedBuffer 17 42).r = 17 ∧ (getPixel renderedBuffer 17 42).g = 42) ∧
    specQuant 255 = (255 : ℤ) ∧
    (getPixel renderedBuffer 1 0).r < (getPixel renderedBuffer 2 0).r ∧
    (getPixel renderedBuffer 0 1).g < (getPixel renderedBuffer 0 2).g :=
  ⟨channels_are_identity.1 17 42 (by decide) (by decide),
   channels_are_identity.2.1 255 (by decide),
   channels_are_identity.2.2.1 0 1 2 (by decide) (by decide) (by decide),
   channels_are_identity.2.2.2 0 1 2 (by decide) (by decide) (by decide)⟩

end GradientRenderer
